import Mathlib

/-!
# Verification of the lua-redis-wasm guest core

A shallow embedding, in Lean 4, of the reply codec, the host-call bridge and
the runtime entry-point logic of the guest module
(`src/wasm/src/runtime.c`, `src/wasm/src/redis_api.c`, `src/wasm/include/abi.h`),
together with proofs of the testable properties stated in the specification.

Modelling conventions:
* guest memory regions are `List Nat`, one entry per byte (each `< 256` where
  the C writes a byte);
* C `uint32_t` / `int64_t` arithmetic is `Nat` / `Int` with explicit `% 2 ^ 32`
  or `% 2 ^ 64` where the C truncates;
* `lua_Number` (a C double) is modelled as `ℚ`, exact on every value the
  claims exercise; `lua_Number` / `int64_t` round trips are exact in the model;
* fallible C functions returning `-1` / raising a Lua error become
  `Option` / `Except (List Nat)` (the `List Nat` is the raised message's bytes);
* the embedded Lua interpreter is out of scope of the source (an opaque
  evaluator per the spec); the few facts needed about it (which libraries set
  which globals, that a raised message is delivered verbatim to `lua_pcall`'s
  caller) are modelled from the spec and marked `Modelled from the spec:`.
-/

namespace LuaRedisWasm

/-! ## Byte-level primitives (`write_u32_le`, `read_u32_le`, `write_i64_le`,
`read_i64_le` of `runtime.c` / `redis_api.c`) -/

/-- Byte fetch from a guest buffer; out-of-range reads never happen on the
paths the C takes (every access is behind an explicit bounds check), the
default `0` is arbitrary. -/
def byteAt (buf : List Nat) (i : Nat) : Nat :=
  (buf[i]?).getD 0

/-- `(buf.drop off).take n`: the `n` bytes starting at `off`, as `memcpy` /
`lua_pushlstring` read them. -/
def slice (buf : List Nat) (off n : Nat) : List Nat :=
  (buf.drop off).take n

/-- `write_u32_le`: the four little-endian bytes of a `uint32_t` value
(a wider `Nat` is truncated exactly as the C cast does). -/
def u32le (n : Nat) : List Nat :=
  [n % 256, n / 256 % 256, n / 65536 % 256, n / 16777216 % 256]

/-- `read_u32_le`: recompose a `uint32_t` from four little-endian bytes.
The C ors shifted bytes; on byte values `< 256` that is this sum. -/
def u32at (buf : List Nat) (off : Nat) : Nat :=
  byteAt buf off + 256 * byteAt buf (off + 1) + 65536 * byteAt buf (off + 2) +
    16777216 * byteAt buf (off + 3)

/-- `write_i64_le`: the eight little-endian bytes of an `int64_t`, i.e. of its
two's-complement image `(uint64_t)value`. -/
def i64le (v : Int) : List Nat :=
  let u := (v % (2 ^ 64 : Int)).toNat
  [u % 256, u / 256 % 256, u / 65536 % 256, u / 16777216 % 256,
   u / 4294967296 % 256, u / 1099511627776 % 256,
   u / 281474976710656 % 256, u / 72057594037927936 % 256]

/-- `read_i64_le`: recompose the unsigned 64-bit value from eight
little-endian bytes, then reinterpret as a signed `int64_t`. -/
def i64at (buf : List Nat) (off : Nat) : Int :=
  let u : Nat :=
    byteAt buf off + 256 * byteAt buf (off + 1) + 65536 * byteAt buf (off + 2) +
    16777216 * byteAt buf (off + 3) + 4294967296 * byteAt buf (off + 4) +
    1099511627776 * byteAt buf (off + 5) + 281474976710656 * byteAt buf (off + 6) +
    72057594037927936 * byteAt buf (off + 7)
  if u < 2 ^ 63 then (u : Int) else (u : Int) - 2 ^ 64

/-- ASCII bytes of a C string literal (what `memcpy` copies, the terminating
NUL excluded — a literal's region in memory is these bytes followed by `0`). -/
def msgBytes (s : String) : List Nat :=
  s.data.map Char.toNat

/-! ## Lua values

The subset of Lua values the runtime inspects.  A table is modelled by its
string-keyed fields (an association list, as `lua_getfield` sees them) and its
1-indexed sequence prefix (what `lua_objlen` / `lua_rawgeti 1..N` traverse).
`fn` stands for every Lua type the encoder rejects (function, userdata,
thread). -/

inductive LuaValue where
  | nil : LuaValue
  | num (q : ℚ) : LuaValue
  | boolean (b : Bool) : LuaValue
  | str (s : List Nat) : LuaValue
  | table (fields : List (String × LuaValue)) (seq : List LuaValue) : LuaValue
  | fn : LuaValue
deriving Repr

/-- `lua_getfield` on the modelled table fields: first binding wins, a missing
key reads as `nil`. -/
def tget (fields : List (String × LuaValue)) (k : String) : LuaValue :=
  match fields.find? (fun p => p.1 == k) with
  | some p => p.2
  | none => LuaValue.nil

/-- `lua_isstring`: true on strings and on numbers (Lua coerces numbers to
strings implicitly). -/
def isStringy : LuaValue → Bool
  | LuaValue.str _ => true
  | LuaValue.num _ => true
  | _ => false

/-- `lua_tolstring` on a value with `isStringy` set: a string's own bytes, a
number's canonical textual form (`f` is the interpreter's number formatter,
opaque to this module). -/
def stringyBytes (f : ℚ → List Nat) : LuaValue → List Nat
  | LuaValue.str s => s
  | LuaValue.num q => f q
  | _ => []

/-- `(int64_t)num`: C truncation toward zero of a `lua_Number`.
(`Int.tdiv` truncates toward zero, matching the C cast on in-range
values.) -/
def luaTrunc (q : ℚ) : Int :=
  q.num.tdiv (q.den : Int)

/-! ## Reply-frame construction (`rb_write_header`, `reply_error`,
`reply_status` of `runtime.c`)

A `ReplyBuffer` is just the list of bytes appended so far; allocation
failure (`realloc` returning NULL) is not modelled — every append succeeds. -/

/-- `REPLY_NULL` .. `REPLY_ERROR` tags of `abi.h`. -/
def REPLY_NULL : Nat := 0
def REPLY_INT : Nat := 1
def REPLY_BULK : Nat := 2
def REPLY_ARRAY : Nat := 3
def REPLY_STATUS : Nat := 4
def REPLY_ERROR : Nat := 5

/-- `rb_write_header`: one tag byte then the 32-bit little-endian
`count_or_len` (the `(uint32_t)` casts at the call sites are absorbed by
`u32le`). -/
def rb_write_header (type count_or_len : Nat) : List Nat :=
  type :: u32le count_or_len

/-- `reply_error(msg, len)`: an Error frame whose payload is the first `len`
bytes of the memory region holding `msg`.  The C passes explicit length
constants that do not always equal the literal's character count, so the
region (characters followed by the NUL terminator) and the length are kept
separate here, exactly as in the source. -/
def reply_error (region : List Nat) (len : Nat) : List Nat :=
  rb_write_header REPLY_ERROR len ++ region.take len

/-- `reply_status(msg, len)`. -/
def reply_status (region : List Nat) (len : Nat) : List Nat :=
  rb_write_header REPLY_STATUS len ++ region.take len

/-! ## The value encoder (`encode_lua_value` / `encode_table` of `runtime.c`)

`none` models the C functions returning `-1` (unsupported type).  The
formatter `f` stands for `lua_tolstring`'s number-to-string conversion. -/

mutual

/-- `encode_lua_value`: dispatch on the Lua type of the value at `idx`. -/
def encode_lua_value (f : ℚ → List Nat) : LuaValue → Option (List Nat)
  | LuaValue.nil => some (rb_write_header REPLY_NULL 0)
  | LuaValue.num q =>
      if (luaTrunc q : ℚ) = q then
        some (rb_write_header REPLY_INT 8 ++ i64le (luaTrunc q))
      else
        some (rb_write_header REPLY_BULK (f q).length ++ f q)
  | LuaValue.boolean b =>
      if b then some (rb_write_header REPLY_INT 8 ++ i64le 1)
      else some (rb_write_header REPLY_NULL 0)
  | LuaValue.str s => some (rb_write_header REPLY_BULK s.length ++ s)
  | LuaValue.table fields seq => encode_table f fields seq
  | LuaValue.fn => none

/-- `encode_table`: a stringy `ok` field makes a Status, otherwise a stringy
`err` field makes an Error, otherwise the 1..N sequence prefix makes an
Array. -/
def encode_table (f : ℚ → List Nat) (fields : List (String × LuaValue))
    (seq : List LuaValue) : Option (List Nat) :=
  if isStringy (tget fields "ok") then
    let s := stringyBytes f (tget fields "ok")
    some (rb_write_header REPLY_STATUS s.length ++ s)
  else if isStringy (tget fields "err") then
    let s := stringyBytes f (tget fields "err")
    some (rb_write_header REPLY_ERROR s.length ++ s)
  else
    match encode_seq f seq with
    | none => none
    | some body => some (rb_write_header REPLY_ARRAY seq.length ++ body)

/-- The `for (i = 1; i <= count; i++)` loop of `encode_table`: encode the
sequence elements in order, concatenating their frames; fail if any element
fails. -/
def encode_seq (f : ℚ → List Nat) : List LuaValue → Option (List Nat)
  | [] => some []
  | v :: vs =>
      match encode_lua_value f v with
      | none => none
      | some frame =>
          match encode_seq f vs with
          | none => none
          | some rest => some (frame ++ rest)

end

/-! ## The reply decoder (`decode_reply` of `redis_api.c`)

`decode_reply` reads one frame at an offset, advancing the offset; an Array
frame loops over `count_or_len` child frames.  Every failure is a raised Lua
error (`luaL_error` / `lua_error`), modelled as `Except.error msg`.

The C recursion (one frame, with an inner child loop) is phrased here as one
function decoding `count` consecutive frames — the child loop of the Array
case *is* `decodeMany` on the children, and a single frame is `count = 1`.
The extra `fuel` argument only forces termination; every theorem below
supplies enough fuel that the fuel-exhaustion branch is never taken. -/

/-- The `"ERR reply decoding failed"` message raised by `decode_reply`'s
bounds checks and child-failure check. -/
def decodeFailMsg : List Nat := msgBytes "ERR reply decoding failed"

/-- The `"ERR unknown reply type"` message raised on an unrecognized tag
byte (the `default:` arm of `decode_reply`). -/
def unknownTypeMsg : List Nat := msgBytes "ERR unknown reply type"

/-- `decode_reply` iterated over `count` consecutive frames starting at
`off`: the header bounds check, the tag dispatch, the payload bounds checks,
the `raise_on_error` behaviour on an Error frame, and the Array case
recursing into `count_or_len` children, exactly as in the C. -/
def decodeMany (raise_on_error : Bool) (buf : List Nat) :
    Nat → Nat → Nat → Except (List Nat) (List LuaValue × Nat)
  | 0, _, _ => Except.error decodeFailMsg
  | _ + 1, 0, off => Except.ok ([], off)
  | fuel + 1, count + 1, off =>
    if off + 5 > buf.length then Except.error decodeFailMsg
    else
      let t := byteAt buf off
      let m := u32at buf (off + 1)
      let o := off + 5
      let first : Except (List Nat) (LuaValue × Nat) :=
        match t with
        | 0 => Except.ok (LuaValue.nil, o)
        | 1 =>
          if o + 8 > buf.length then Except.error decodeFailMsg
          else Except.ok (LuaValue.num ((i64at buf o : Int) : ℚ), o + 8)
        | 2 =>
          if o + m > buf.length then Except.error decodeFailMsg
          else Except.ok (LuaValue.str (slice buf o m), o + m)
        | 3 =>
          match decodeMany raise_on_error buf fuel m o with
          | Except.error e => Except.error e
          | Except.ok (vs, o2) => Except.ok (LuaValue.table [] vs, o2)
        | 4 =>
          if o + m > buf.length then Except.error decodeFailMsg
          else Except.ok (LuaValue.table [("ok", LuaValue.str (slice buf o m))] [], o + m)
        | 5 =>
          if o + m > buf.length then Except.error decodeFailMsg
          else if raise_on_error then Except.error (slice buf o m)
          else Except.ok (LuaValue.table [("err", LuaValue.str (slice buf o m))] [], o + m)
        | _ => Except.error unknownTypeMsg
      match first with
      | Except.error e => Except.error e
      | Except.ok (v, o2) =>
        match decodeMany raise_on_error buf fuel count o2 with
        | Except.error e => Except.error e
        | Except.ok (vs, o3) => Except.ok (v :: vs, o3)

/-- `decode_reply(buf, off)` proper: decode one frame. -/
def decode_reply (raise_on_error : Bool) (buf : List Nat) (fuel off : Nat) :
    Except (List Nat) (List LuaValue × Nat) :=
  decodeMany raise_on_error buf fuel 1 off

/-! ## Reply values (§3 of the spec)

The tagged value carried across the host/guest boundary.  The source has no
such C type — a reply exists only as a frame, produced from a Lua value by
`encode_lua_value` and consumed into a Lua value by `decode_reply` — so the
round-trip laws relate a `Reply` to its Lua representation `replyToLua`. -/

inductive Reply where
  | null : Reply
  | int (n : Int) : Reply
  | bulk (s : List Nat) : Reply
  | array (xs : List Reply) : Reply
  | status (s : List Nat) : Reply
  | error (s : List Nat) : Reply
deriving Repr

mutual

/-- The legal domain of the codec: every length fits the 32-bit
`count_or_len` field and every Int fits a signed 64-bit integer.  (Payload
byte values are copied verbatim in both directions, so no bound on them is
needed for the round trip.) -/
def wfReply : Reply → Bool
  | Reply.null => true
  | Reply.int n => decide (-(2 ^ 63) ≤ n) && decide (n < 2 ^ 63)
  | Reply.bulk s => decide (s.length < 2 ^ 32)
  | Reply.array xs => decide (xs.length < 2 ^ 32) && wfReplyList xs
  | Reply.status s => decide (s.length < 2 ^ 32)
  | Reply.error s => decide (s.length < 2 ^ 32)

def wfReplyList : List Reply → Bool
  | [] => true
  | v :: vs => wfReply v && wfReplyList vs

end

mutual

/-- The Lua value representing a Reply on the script side: exactly the
shapes `decode_reply` constructs (`lua_pushnil`, `lua_pushnumber`,
`lua_pushlstring`, `push_status_table`, `push_error_table`, and the
`lua_createtable`/`lua_rawseti` loop for arrays). -/
def replyToLua : Reply → LuaValue
  | Reply.null => LuaValue.nil
  | Reply.int n => LuaValue.num (n : ℚ)
  | Reply.bulk s => LuaValue.str s
  | Reply.array xs => LuaValue.table [] (replyToLuaList xs)
  | Reply.status s => LuaValue.table [("ok", LuaValue.str s)] []
  | Reply.error s => LuaValue.table [("err", LuaValue.str s)] []

def replyToLuaList : List Reply → List LuaValue
  | [] => []
  | v :: vs => replyToLua v :: replyToLuaList vs

end

mutual

/-- Partial inverse of `replyToLua`: reading a decoded Lua value back as the
Reply it denotes.  Witnesses that `replyToLua` loses nothing. -/
def luaToReply : LuaValue → Option Reply
  | LuaValue.nil => some Reply.null
  | LuaValue.num q =>
      if (luaTrunc q : ℚ) = q then some (Reply.int (luaTrunc q)) else none
  | LuaValue.str s => some (Reply.bulk s)
  | LuaValue.table [("ok", LuaValue.str s)] [] => some (Reply.status s)
  | LuaValue.table [("err", LuaValue.str s)] [] => some (Reply.error s)
  | LuaValue.table [] vs =>
      match luaToReplyList vs with
      | some rs => some (Reply.array rs)
      | none => none
  | _ => none

def luaToReplyList : List LuaValue → Option (List Reply)
  | [] => some []
  | v :: vs =>
      match luaToReply v, luaToReplyList vs with
      | some r, some rs => some (r :: rs)
      | _, _ => none

end

mutual

/-- The byte frame `encode_lua_value` emits for (the Lua representation of) a
Reply value; proved below to agree with `encode_lua_value ∘ replyToLua`. -/
def encodeReply : Reply → List Nat
  | Reply.null => rb_write_header REPLY_NULL 0
  | Reply.int n => rb_write_header REPLY_INT 8 ++ i64le n
  | Reply.bulk s => rb_write_header REPLY_BULK s.length ++ s
  | Reply.array xs => rb_write_header REPLY_ARRAY xs.length ++ encodeReplyList xs
  | Reply.status s => rb_write_header REPLY_STATUS s.length ++ s
  | Reply.error s => rb_write_header REPLY_ERROR s.length ++ s

def encodeReplyList : List Reply → List Nat
  | [] => []
  | v :: vs => encodeReply v ++ encodeReplyList vs

end

mutual

/-- The first Error payload `decode_reply` meets in decoding order (depth
first, array children left to right), if any: with `raise_on_error` set this
is the message `lua_error` raises. -/
def firstErr : Reply → Option (List Nat)
  | Reply.error s => some s
  | Reply.array xs => firstErrList xs
  | _ => none

def firstErrList : List Reply → Option (List Nat)
  | [] => none
  | v :: vs =>
      match firstErr v with
      | some e => some e
      | none => firstErrList vs

end

/-- Reply-kind discriminator: `true` exactly on the Error variant. -/
def isErrorReply : Reply → Bool
  | Reply.error _ => true
  | _ => false

/-- What decoding the encoded frames of the Reply values `vs` must produce:
with `raise_on_error` set and an Error among them, the raise of the first
such payload; otherwise their Lua representations with the cursor at
`endOff`.  (Only used to state theorems.) -/
def decodeOutcome (raise_on_error : Bool) (vs : List Reply) (endOff : Nat) :
    Except (List Nat) (List LuaValue × Nat) :=
  match raise_on_error, firstErrList vs with
  | true, some e => Except.error e
  | _, _ => Except.ok (replyToLuaList vs, endOff)

/-! ## Runtime global state (`runtime.c` statics, `redis_api.c` statics)

`g_state` is reduced to the bit the claims need — whether an interpreter
exists; `g_resp_version` lives in `redis_api.c` and is never touched by
`runtime.c`. -/

/-- `DEFAULT_FUEL_LIMIT`. -/
def DEFAULT_FUEL_LIMIT : Int := 10000000

/-- `FUEL_HOOK_STEP`. -/
def FUEL_HOOK_STEP : Int := 1000

/-- The process-wide mutable scalars of the guest. -/
structure ModState where
  initialized : Bool
  fuel_limit : Int
  fuel_remaining : Int
  max_reply_bytes : Nat
  max_arg_bytes : Nat
  resp_version : Nat
deriving Repr, DecidableEq

/-- The statics' initializers: no interpreter, default fuel, unlimited caps,
RESP version 2 (`static uint32_t g_resp_version = 2`). -/
def initialModState : ModState :=
  { initialized := false
    fuel_limit := DEFAULT_FUEL_LIMIT
    fuel_remaining := DEFAULT_FUEL_LIMIT
    max_reply_bytes := 0
    max_arg_bytes := 0
    resp_version := 2 }

/-- `set_limits`: 0 for `max_fuel` means "leave unchanged"; the two byte caps
are stored unconditionally. -/
def set_limits (s : ModState) (max_fuel max_reply_bytes max_arg_bytes : Nat) : ModState :=
  { s with
    fuel_limit := if max_fuel > 0 then (max_fuel : Int) else s.fuel_limit
    max_reply_bytes := max_reply_bytes
    max_arg_bytes := max_arg_bytes }

/-- `init`: tear down any existing interpreter, create a fresh one (creation
success is assumed — `luaL_newstate` failure is an out-of-memory condition
outside the model), apply the sandbox, register the bridge, arm the hook,
reset the fuel.  Returns 0.  `g_resp_version` is a `redis_api.c` static that
`init` never references. -/
def init_op (s : ModState) : ModState × Int :=
  ({ s with initialized := true, fuel_remaining := s.fuel_limit }, 0)

/-- `reset`: fails with −1 when no interpreter exists, otherwise like
`init`. -/
def reset_op (s : ModState) : ModState × Int :=
  if s.initialized then
    ({ s with fuel_remaining := s.fuel_limit }, 0)
  else (s, -1)

/-- `l_redis_setresp`: return the previous value, store the argument (cast
through `uint32_t`). -/
def setresp_op (s : ModState) (v : Nat) : Nat × ModState :=
  (s.resp_version, { s with resp_version := v % 2 ^ 32 })

/-! ## The fuel hook (`fuel_hook` of `runtime.c`) -/

/-- The literal message of the fuel-kill error. -/
def fuelMsg : List Nat := msgBytes "Script killed by fuel limit"

/-- `fuel_hook`: subtract the step; raise when the remainder is ≤ 0.
Modelled from the spec: `luaL_error` raises a script error carrying the
given message, delivered verbatim to the failing `lua_pcall`'s caller. -/
def fuel_hook (fuel_remaining : Int) : Except (List Nat) Int :=
  let f := fuel_remaining - FUEL_HOOK_STEP
  if f ≤ 0 then Except.error fuelMsg else Except.ok f

/-- `n` consecutive firings of the fuel hook, as the interpreter produces
them every `FUEL_HOOK_STEP` instructions while a script runs. -/
def run_hooks : Int → Nat → Except (List Nat) Int
  | fuel, 0 => Except.ok fuel
  | fuel, n + 1 =>
      match fuel_hook fuel with
      | Except.error e => Except.error e
      | Except.ok f => run_hooks f n

/-! ## Error replies of the entry points (`runtime.c` lines 404–502)

Each `reply_error("...", N)` call is reproduced with its literal's memory
region (characters plus NUL terminator) and its exact length constant `N`
from the source — several of those constants do not equal the literal's
character count. -/

/-- `reply_error("ERR Lua VM not initialized", 26)`. -/
def vmNotInitReply : List Nat :=
  reply_error (msgBytes "ERR Lua VM not initialized" ++ [0]) 26

/-- `reply_error("ERR invalid KEYS/ARGV encoding", 31)` — the literal has 30
characters, the constant is 31. -/
def invalidKeysReply : List Nat :=
  reply_error (msgBytes "ERR invalid KEYS/ARGV encoding" ++ [0]) 31

/-- `reply_error("ERR unsupported Lua return type", 32)` — the literal has
31 characters, the constant is 32. -/
def unsupportedReply : List Nat :=
  reply_error (msgBytes "ERR unsupported Lua return type" ++ [0]) 32

/-- `reply_error("ERR reply exceeds configured limit", 34)`. -/
def replyLimitReply : List Nat :=
  reply_error (msgBytes "ERR reply exceeds configured limit" ++ [0]) 34

/-- `reply_status("OK", 2)`. -/
def okStatusReply : List Nat :=
  reply_status (msgBytes "OK" ++ [0]) 2

/-- Lines 418–423 / 472–477: a failed `lua_pcall` yields an error reply
carrying the interpreter's message with its exact length
(`lua_tolstring(g_state, -1, &err_len)`).  Modelled from the spec: the
interpreter delivers the raised message verbatim. -/
def exec_failure_reply (errMsg : List Nat) : List Nat :=
  reply_error errMsg errMsg.length

/-- Lines 425–447 / 479–501: the tail of `eval` / `eval_with_args` after a
successful `lua_pcall`, as a function of the value left on top of the stack
(`none` when the stack is empty). -/
def eval_result (s : ModState) (f : ℚ → List Nat) (top : Option LuaValue) : List Nat :=
  match top with
  | none => okStatusReply
  | some v =>
    match encode_lua_value f v with
    | none => unsupportedReply
    | some rb =>
      if 0 < s.max_reply_bytes ∧ s.max_reply_bytes < rb.length then replyLimitReply
      else rb

/-! ## KEYS/ARGV frame parsing (`set_keys_argv` of `runtime.c`) -/

/-- The item loop of `set_keys_argv`: read `count` items, each a 4-byte
little-endian length followed by that many bytes, failing when either read
would pass `buf.length`.  (The C installs each item into the KEYS or ARGV
table as it parses; collecting them first is observationally the same.) -/
def parseItems (buf : List Nat) : Nat → Nat → Option (List (List Nat))
  | 0, _ => some []
  | count + 1, off =>
    if off + 4 > buf.length then none
    else
      let n := u32at buf off
      if off + 4 + n > buf.length then none
      else
        match parseItems buf count (off + 4 + n) with
        | none => none
        | some rest => some (slice buf (off + 4) n :: rest)

/-- `set_keys_argv`: reject a buffer shorter than the 4-byte count, read the
count, reject `keys_count > count`, parse the items, split them into the
KEYS prefix and the ARGV remainder. -/
def set_keys_argv (buf : List Nat) (keys_count : Nat) :
    Option (List (List Nat) × List (List Nat)) :=
  if buf.length < 4 then none
  else
    let count := u32at buf 0
    if keys_count > count then none
    else
      match parseItems buf count 4 with
      | none => none
      | some items => some (items.take keys_count, items.drop keys_count)

/-- The encoding of a request/argument frame's items: per item a 4-byte
little-endian length then the raw bytes (`ab_append_string`). -/
def itemsEnc : List (List Nat) → List Nat
  | [] => []
  | s :: rest => u32le s.length ++ s ++ itemsEnc rest

/-- A whole request/argument frame: 4-byte little-endian item count, then
the items (`ab_init` + `ab_append_string`, and the wire format the spec
gives for the KEYS+ARGV bundle). -/
def requestFrame (items : List (List Nat)) : List Nat :=
  u32le items.length ++ itemsEnc items

/-- Outcome of `eval_with_args` up to and including the KEYS/ARGV
installation (lines 452–463): the three early error replies, or the parsed
KEYS and ARGV lists handed to the script.  The constructors stand for
`reply_error("ERR Lua VM not initialized", 26)`,
`reply_error("ERR KEYS/ARGV exceeds configured limit", 40)` (whose payload
read overruns the 39-byte literal region and is therefore not a determinate
byte list) and `reply_error("ERR invalid KEYS/ARGV encoding", 31)` i.e.
`invalidKeysReply`. -/
inductive ArgStepResult where
  | notInit : ArgStepResult
  | argLimitExceeded : ArgStepResult
  | badEncoding : ArgStepResult
  | proceed (keys argv : List (List Nat)) : ArgStepResult
deriving Repr, DecidableEq

/-- Lines 452–463 of `eval_with_args`: interpreter check, `max_arg_bytes`
check, then `set_keys_argv`. -/
def eval_with_args_argstep (s : ModState) (args : List Nat) (keys_count : Nat) :
    ArgStepResult :=
  if ¬s.initialized then ArgStepResult.notInit
  else if 0 < s.max_arg_bytes ∧ s.max_arg_bytes < args.length then
    ArgStepResult.argLimitExceeded
  else
    match set_keys_argv args keys_count with
    | none => ArgStepResult.badEncoding
    | some (k, a) => ArgStepResult.proceed k a

/-! ## The sandboxed global environment (`disable_non_determinism`,
`open_allowed_libs`, `register_redis_api`, `init`)

The global table is an association list updated by prepending, exactly how
`lua_setglobal` / `lua_setfield` shadow earlier bindings for lookup
purposes. -/

/-- The script-visible global environment. -/
def Env : Type := List (String × LuaValue)

/-- `lua_getglobal`. -/
def getGlobal (env : Env) (n : String) : LuaValue := tget env n

/-- `lua_setglobal`. -/
def setGlobal (env : Env) (n : String) (v : LuaValue) : Env := (n, v) :: env

/-- `lua_setfield` on a modelled table's fields. -/
def tset (fields : List (String × LuaValue)) (k : String) (v : LuaValue) :
    List (String × LuaValue) := (k, v) :: fields

/-- `remove_global`: assign nil to the global. -/
def remove_global (env : Env) (n : String) : Env := setGlobal env n LuaValue.nil

/-- `remove_package_entry`: clear `package.loaded[name]` when both `package`
and `package.loaded` are tables; otherwise do nothing.  (By the time it runs,
`disable_non_determinism` has already nil'd `package`, so it is a no-op.) -/
def remove_package_entry (env : Env) (n : String) : Env :=
  match getGlobal env "package" with
  | LuaValue.table pf ps =>
      match tget pf "loaded" with
      | LuaValue.table lf ls =>
          setGlobal env "package"
            (LuaValue.table (tset pf "loaded" (LuaValue.table (tset lf n LuaValue.nil) ls)) ps)
      | _ => env
  | _ => env

/-- `disable_non_determinism`, in source order: nil the seven capability
globals, clear their `package.loaded` entries, then remove `random` and
`randomseed` from the `math` table when `math` is a table. -/
def disable_non_determinism (env : Env) : Env :=
  let env := remove_global env "io"
  let env := remove_global env "os"
  let env := remove_global env "debug"
  let env := remove_global env "package"
  let env := remove_global env "require"
  let env := remove_global env "dofile"
  let env := remove_global env "loadfile"
  let env := remove_package_entry env "io"
  let env := remove_package_entry env "os"
  let env := remove_package_entry env "debug"
  let env := remove_package_entry env "package"
  match getGlobal env "math" with
  | LuaValue.table mf ms =>
      setGlobal env "math"
        (LuaValue.table (tset (tset mf "random" LuaValue.nil) "randomseed" LuaValue.nil) ms)
  | _ => env

/-- Modelled from the spec: `luaopen_base` (not under `src/`) installs the
core globals — among them `dofile` and `loadfile`; the baseline libraries
never install `io`, `os`, `debug`, `package` or `require`. -/
def luaopen_base_g (env : Env) : Env :=
  let env := setGlobal env "print" LuaValue.fn
  let env := setGlobal env "type" LuaValue.fn
  let env := setGlobal env "pcall" LuaValue.fn
  let env := setGlobal env "tostring" LuaValue.fn
  let env := setGlobal env "dofile" LuaValue.fn
  setGlobal env "loadfile" LuaValue.fn

/-- Modelled from the spec: `luaopen_table` installs the `table` library
global. -/
def luaopen_table_g (env : Env) : Env :=
  setGlobal env "table" (LuaValue.table [("insert", LuaValue.fn), ("remove", LuaValue.fn)] [])

/-- Modelled from the spec: `luaopen_string` installs the `string` library
global. -/
def luaopen_string_g (env : Env) : Env :=
  setGlobal env "string" (LuaValue.table [("rep", LuaValue.fn), ("sub", LuaValue.fn)] [])

/-- Modelled from the spec: `luaopen_math` installs the `math` library
global, including `random` and `randomseed`. -/
def luaopen_math_g (env : Env) : Env :=
  setGlobal env "math"
    (LuaValue.table
      [("random", LuaValue.fn), ("randomseed", LuaValue.fn), ("floor", LuaValue.fn)] [])

/-- Modelled from the spec: each auxiliary library loader (`luaopen_cjson`,
`luaopen_struct`, `luaopen_cmsgpack`, `luaopen_bit`, not under `src/`)
registers a table under its own global name, as `luaLoadLib` invokes it. -/
def luaLoadLib_g (env : Env) (n : String) : Env :=
  setGlobal env n (LuaValue.table [] [])

/-- `load_redis_modules`, in source order. -/
def load_redis_modules (env : Env) : Env :=
  let env := luaLoadLib_g env "cjson"
  let env := luaLoadLib_g env "struct"
  let env := luaLoadLib_g env "cmsgpack"
  luaLoadLib_g env "bit"

/-- `open_allowed_libs`, in source order: base, table, string, math, then
the sandbox removals, then the auxiliary modules. -/
def open_allowed_libs (env : Env) : Env :=
  load_redis_modules (disable_non_determinism
    (luaopen_math_g (luaopen_string_g (luaopen_table_g (luaopen_base_g env)))))

/-- `register_redis_api` (of `redis_api.c`): the `redis` global with the
seven bridge functions and the four log-level constants. -/
def register_redis_api (env : Env) : Env :=
  setGlobal env "redis"
    (LuaValue.table
      [("call", LuaValue.fn), ("pcall", LuaValue.fn), ("log", LuaValue.fn),
       ("sha1hex", LuaValue.fn), ("error_reply", LuaValue.fn),
       ("status_reply", LuaValue.fn), ("setresp", LuaValue.fn),
       ("LOG_DEBUG", LuaValue.num 0), ("LOG_VERBOSE", LuaValue.num 1),
       ("LOG_NOTICE", LuaValue.num 2), ("LOG_WARNING", LuaValue.num 3)] [])

/-- The global environment after `init` (and identically after `reset`):
`luaL_newstate` starts from an empty global table, then
`open_allowed_libs` and `register_redis_api` run. -/
def init_lua_env : Env :=
  register_redis_api (open_allowed_libs [])

/-- The global environment after `reset`: `reset` performs exactly the same
`luaL_newstate` / `open_allowed_libs` / `register_redis_api` sequence as
`init` (lines 388–402 of `runtime.c`). -/
def reset_lua_env : Env :=
  register_redis_api (open_allowed_libs [])

/-- `true` exactly on table values; `type(x) == "table"` in a script. -/
def isTable : LuaValue → Bool
  | LuaValue.table _ _ => true
  | _ => false

/-- Field read through a global: `math.random` etc. -/
def getGlobalField (env : Env) (n k : String) : LuaValue :=
  match getGlobal env n with
  | LuaValue.table fs _ => tget fs k
  | _ => LuaValue.nil

/-! ## Byte-level lemmas -/

theorem byteAt_append (pre l : List Nat) (i : Nat) :
    byteAt (pre ++ l) (pre.length + i) = byteAt l i := by
  simp [byteAt, List.getElem?_append_right (Nat.le_add_right pre.length i)]

theorem byteAt_append_zero (pre l : List Nat) :
    byteAt (pre ++ l) pre.length = byteAt l 0 := by
  have h := byteAt_append pre l 0
  simpa using h

theorem slice_append (pre l : List Nat) (n : Nat) :
    slice (pre ++ l) pre.length n = l.take n := by
  simp [slice, List.drop_left]

theorem slice_exact (pre s post : List Nat) :
    slice (pre ++ (s ++ post)) pre.length s.length = s := by
  rw [slice_append, List.take_left]

theorem byteAt_u32le (n : Nat) (post : List Nat) :
    byteAt (u32le n ++ post) 0 = n % 256 ∧
    byteAt (u32le n ++ post) 1 = n / 256 % 256 ∧
    byteAt (u32le n ++ post) 2 = n / 65536 % 256 ∧
    byteAt (u32le n ++ post) 3 = n / 16777216 % 256 := by
  refine ⟨?_, ?_, ?_, ?_⟩ <;> simp [byteAt, u32le]

/-- Reading back a 32-bit little-endian field recovers the value modulo
`2^32` (i.e. exactly after the C's `uint32_t` truncation). -/
theorem u32at_append (pre post : List Nat) (n : Nat) :
    u32at (pre ++ (u32le n ++ post)) pre.length = n % 4294967296 := by
  obtain ⟨c0, c1, c2, c3⟩ := byteAt_u32le n post
  have b0 := byteAt_append_zero pre (u32le n ++ post)
  have b1 := byteAt_append pre (u32le n ++ post) 1
  have b2 := byteAt_append pre (u32le n ++ post) 2
  have b3 := byteAt_append pre (u32le n ++ post) 3
  rw [u32at, b0, b1, b2, b3, c0, c1, c2, c3]
  omega

theorem u32at_append_exact (pre post : List Nat) (n : Nat) (h : n < 4294967296) :
    u32at (pre ++ (u32le n ++ post)) pre.length = n := by
  rw [u32at_append]
  omega

theorem byteAt_i64le (v : Int) (post : List Nat) :
    byteAt (i64le v ++ post) 0 = (v % (2 ^ 64 : Int)).toNat % 256 ∧
    byteAt (i64le v ++ post) 1 = (v % (2 ^ 64 : Int)).toNat / 256 % 256 ∧
    byteAt (i64le v ++ post) 2 = (v % (2 ^ 64 : Int)).toNat / 65536 % 256 ∧
    byteAt (i64le v ++ post) 3 = (v % (2 ^ 64 : Int)).toNat / 16777216 % 256 ∧
    byteAt (i64le v ++ post) 4 = (v % (2 ^ 64 : Int)).toNat / 4294967296 % 256 ∧
    byteAt (i64le v ++ post) 5 = (v % (2 ^ 64 : Int)).toNat / 1099511627776 % 256 ∧
    byteAt (i64le v ++ post) 6 = (v % (2 ^ 64 : Int)).toNat / 281474976710656 % 256 ∧
    byteAt (i64le v ++ post) 7 = (v % (2 ^ 64 : Int)).toNat / 72057594037927936 % 256 := by
  refine ⟨?_, ?_, ?_, ?_, ?_, ?_, ?_, ?_⟩ <;> simp [byteAt, i64le]

/-- Reading back an 8-byte little-endian signed field recovers any `int64_t`
value exactly. -/
theorem i64at_append (pre post : List Nat) (v : Int)
    (hlo : -(2 ^ 63) ≤ v) (hhi : v < 2 ^ 63) :
    i64at (pre ++ (i64le v ++ post)) pre.length = v := by
  obtain ⟨c0, c1, c2, c3, c4, c5, c6, c7⟩ := byteAt_i64le v post
  have b0 := byteAt_append_zero pre (i64le v ++ post)
  have b1 := byteAt_append pre (i64le v ++ post) 1
  have b2 := byteAt_append pre (i64le v ++ post) 2
  have b3 := byteAt_append pre (i64le v ++ post) 3
  have b4 := byteAt_append pre (i64le v ++ post) 4
  have b5 := byteAt_append pre (i64le v ++ post) 5
  have b6 := byteAt_append pre (i64le v ++ post) 6
  have b7 := byteAt_append pre (i64le v ++ post) 7
  simp only [i64at, b0, b1, b2, b3, b4, b5, b6, b7, c0, c1, c2, c3, c4, c5, c6, c7]
  split <;> omega

theorem u32le_length (n : Nat) : (u32le n).length = 4 := rfl

theorem i64le_length (v : Int) : (i64le v).length = 8 := rfl

theorem byteAt_tag (pre rest : List Nat) (t : Nat) :
    byteAt (pre ++ (t :: rest)) pre.length = t := by
  rw [byteAt_append_zero]; simp [byteAt]

theorem u32at_header (pre rest : List Nat) (t m : Nat) :
    u32at (pre ++ (t :: (u32le m ++ rest))) (pre.length + 1) = m % 4294967296 := by
  have h : pre ++ (t :: (u32le m ++ rest)) = (pre ++ [t]) ++ (u32le m ++ rest) := by simp
  have hl : pre.length + 1 = (pre ++ [t]).length := by simp
  rw [h, hl, u32at_append]

theorem slice_header (pre rest s : List Nat) (t m : Nat) :
    slice (pre ++ (t :: (u32le m ++ (s ++ rest)))) (pre.length + 5) s.length = s := by
  have h : pre ++ (t :: (u32le m ++ (s ++ rest))) = (pre ++ (t :: u32le m)) ++ (s ++ rest) := by
    simp
  have hl : pre.length + 5 = (pre ++ (t :: u32le m)).length := by simp [u32le]
  rw [h, hl, slice_exact]

theorem i64at_header (pre rest : List Nat) (t m : Nat) (v : Int)
    (hlo : -(2 ^ 63) ≤ v) (hhi : v < 2 ^ 63) :
    i64at (pre ++ (t :: (u32le m ++ (i64le v ++ rest)))) (pre.length + 5) = v := by
  have h : pre ++ (t :: (u32le m ++ (i64le v ++ rest))) =
      (pre ++ (t :: u32le m)) ++ (i64le v ++ rest) := by simp
  have hl : pre.length + 5 = (pre ++ (t :: u32le m)).length := by simp [u32le]
  rw [h, hl, i64at_append _ _ v hlo hhi]

theorem header_buf_length (pre rest : List Nat) (t m : Nat) :
    (pre ++ (t :: (u32le m ++ rest))).length = pre.length + 5 + rest.length := by
  simp [u32le]
  omega

theorem encodeReplyList_cons (v : Reply) (vs : List Reply) :
    encodeReplyList (v :: vs) = encodeReply v ++ encodeReplyList vs := by
  simp [encodeReplyList]

theorem encodeReply_length_ge (v : Reply) : 5 ≤ (encodeReply v).length := by
  cases v <;> simp [encodeReply, rb_write_header, u32le, i64le]

theorem replyToLuaList_length (vs : List Reply) :
    (replyToLuaList vs).length = vs.length := by
  induction vs with
  | nil => simp [replyToLuaList]
  | cons v vs ih => simp [replyToLuaList, ih]

theorem luaTrunc_intCast (n : Int) : luaTrunc (n : ℚ) = n := by
  simp [luaTrunc, Rat.num_intCast, Rat.den_intCast]

/-- `encode_lua_value` on the Lua representation of a Reply emits exactly
the frame `encodeReply` describes (joint statement for a value and for a
list of array children, by strong induction on size). -/
theorem encode_agree_all (f : ℚ → List Nat) :
    ∀ N : Nat,
      (∀ v : Reply, sizeOf v ≤ N →
        encode_lua_value f (replyToLua v) = some (encodeReply v)) ∧
      (∀ vs : List Reply, sizeOf vs ≤ N →
        encode_seq f (replyToLuaList vs) = some (encodeReplyList vs)) := by
  intro N
  induction N using Nat.strong_induction_on with
  | _ N ih =>
    constructor
    · intro v hv
      cases v with
      | null => simp [replyToLua, encode_lua_value, encodeReply]
      | int n =>
        have ht := luaTrunc_intCast n
        simp [replyToLua, encode_lua_value, encodeReply, ht]
      | bulk s => simp [replyToLua, encode_lua_value, encodeReply]
      | status s =>
        simp [replyToLua, encode_lua_value, encode_table, tget, isStringy,
          stringyBytes, encodeReply]
      | error s =>
        simp [replyToLua, encode_lua_value, encode_table, tget, isStringy,
          stringyBytes, encodeReply]
      | array xs =>
        have hsz : sizeOf xs < N := by
          have : sizeOf xs < sizeOf (Reply.array xs) := by
            simp [Reply.array.sizeOf_spec]
          omega
        have hseq := (ih (sizeOf xs) hsz).2 xs (Nat.le_refl _)
        simp [replyToLua, encode_lua_value, encode_table, tget, isStringy,
          stringyBytes, encodeReply, hseq, replyToLuaList_length]
    · intro vs hvs
      cases vs with
      | nil => simp [replyToLuaList, encode_seq, encodeReplyList]
      | cons v vs' =>
        have hs : sizeOf (v :: vs') = 1 + sizeOf v + sizeOf vs' := by
          simp [List.cons.sizeOf_spec]
        have hsv : sizeOf v < N := by omega
        have hsl : sizeOf vs' < N := by omega
        have h1 := (ih (sizeOf v) hsv).1 v (Nat.le_refl _)
        have h2 := (ih (sizeOf vs') hsl).2 vs' (Nat.le_refl _)
        simp [replyToLuaList, encode_seq, encodeReplyList, h1, h2]

/-- `encode_lua_value ∘ replyToLua` agrees with `encodeReply`. -/
theorem encode_replyToLua (f : ℚ → List Nat) (v : Reply) :
    encode_lua_value f (replyToLua v) = some (encodeReply v) :=
  (encode_agree_all f (sizeOf v)).1 v (Nat.le_refl _)

/-- `replyToLua` is left-invertible: reading the Lua representation back
yields the original Reply (joint statement, strong induction on size). -/
theorem luaToReply_all :
    ∀ N : Nat,
      (∀ v : Reply, sizeOf v ≤ N → luaToReply (replyToLua v) = some v) ∧
      (∀ vs : List Reply, sizeOf vs ≤ N →
        luaToReplyList (replyToLuaList vs) = some vs) := by
  intro N
  induction N using Nat.strong_induction_on with
  | _ N ih =>
    constructor
    · intro v hv
      cases v with
      | null => simp [replyToLua, luaToReply]
      | int n =>
        have ht := luaTrunc_intCast n
        simp [replyToLua, luaToReply, ht]
      | bulk s => simp [replyToLua, luaToReply]
      | status s => simp [replyToLua, luaToReply]
      | error s => simp [replyToLua, luaToReply]
      | array xs =>
        have hsz : sizeOf xs < N := by
          have : sizeOf xs < sizeOf (Reply.array xs) := by
            simp [Reply.array.sizeOf_spec]
          omega
        have hxs := (ih (sizeOf xs) hsz).2 xs (Nat.le_refl _)
        simp [replyToLua, luaToReply, hxs]
    · intro vs hvs
      cases vs with
      | nil => simp [replyToLuaList, luaToReplyList]
      | cons v vs' =>
        have hs : sizeOf (v :: vs') = 1 + sizeOf v + sizeOf vs' := by
          simp [List.cons.sizeOf_spec]
        have hsv : sizeOf v < N := by omega
        have hsl : sizeOf vs' < N := by omega
        have h1 := (ih (sizeOf v) hsv).1 v (Nat.le_refl _)
        have h2 := (ih (sizeOf vs') hsl).2 vs' (Nat.le_refl _)
        simp [replyToLuaList, luaToReplyList, h1, h2]

theorem luaToReply_replyToLua (v : Reply) :
    luaToReply (replyToLua v) = some v :=
  (luaToReply_all (sizeOf v)).1 v (Nat.le_refl _)

/-- Central codec lemma: `decode_reply`'s frame loop, run over the encoded
frames of well-formed Reply values embedded in any surrounding buffer,
reconstructs their Lua representations and ends exactly after the encoded
bytes; with `raise_on_error` set it instead raises the first Error payload
encountered in decoding order, if any. -/
theorem decodeOutcome_false (vs : List Reply) (k : Nat) :
    decodeOutcome false vs k = Except.ok (replyToLuaList vs, k) := by
  simp [decodeOutcome]

theorem decodeOutcome_true_none (vs : List Reply) (k : Nat) (h : firstErrList vs = none) :
    decodeOutcome true vs k = Except.ok (replyToLuaList vs, k) := by
  simp [decodeOutcome, h]

theorem decodeOutcome_true_some (vs : List Reply) (k : Nat) (e : List Nat)
    (h : firstErrList vs = some e) :
    decodeOutcome true vs k = Except.error e := by
  simp [decodeOutcome, h]

theorem decodeMany_encoded (raise : Bool) :
    ∀ fuel : Nat, ∀ vs : List Reply, ∀ pre post : List Nat,
      wfReplyList vs = true →
      (encodeReplyList vs).length + 1 ≤ fuel →
      decodeMany raise (pre ++ (encodeReplyList vs ++ post)) fuel vs.length pre.length =
        decodeOutcome raise vs (pre.length + (encodeReplyList vs).length) := by
  intro fuel
  induction fuel with
  | zero =>
    intro vs pre post hwf hfuel
    omega
  | succ F ihF =>
    intro vs pre post hwf hfuel
    cases vs with
    | nil =>
      cases raise <;>
        simp [decodeMany, decodeOutcome, encodeReplyList, replyToLuaList, firstErrList]
    | cons v vs' =>
      have hwf2 : wfReply v = true ∧ wfReplyList vs' = true := by
        have h := hwf
        simp [wfReplyList, Bool.and_eq_true] at h
        exact h
      have henc := encodeReplyList_cons v vs'
      have hlen5 := encodeReply_length_ge v
      -- continuation applied after a successfully decoded first frame
      have hcont :
          decodeMany raise (pre ++ (encodeReply v ++ (encodeReplyList vs' ++ post))) F
              vs'.length (pre.length + (encodeReply v).length) =
            decodeOutcome raise vs'
              (pre.length + (encodeReply v).length + (encodeReplyList vs').length) := by
        have hf : (encodeReplyList vs').length + 1 ≤ F := by
          rw [henc] at hfuel
          simp [List.length_append] at hfuel
          omega
        have hB : pre ++ (encodeReply v ++ (encodeReplyList vs' ++ post)) =
            (pre ++ encodeReply v) ++ (encodeReplyList vs' ++ post) := by
          simp
        have hoff : pre.length + (encodeReply v).length = (pre ++ encodeReply v).length := by
          simp
        rw [hB, hoff, ihF vs' (pre ++ encodeReply v) post hwf2.2 hf]
      rw [henc]
      cases v with
      | null =>
        have hb : pre ++ (encodeReply Reply.null ++ (encodeReplyList vs' ++ post)) =
            pre ++ (0 :: (u32le 0 ++ (encodeReplyList vs' ++ post))) := by
          simp [encodeReply, rb_write_header, REPLY_NULL]
        have hnb : ¬ (pre.length + 5 >
            (pre ++ (encodeReply Reply.null ++ (encodeReplyList vs' ++ post))).length) := by
          rw [hb, header_buf_length]; omega
        have htag : byteAt (pre ++ (encodeReply Reply.null ++ (encodeReplyList vs' ++ post)))
            pre.length = 0 := by
          rw [hb]; exact byteAt_tag _ _ _
        have hel : (encodeReply Reply.null).length = 5 := by
          simp [encodeReply, rb_write_header, REPLY_NULL, u32le]
        rw [hel] at hcont
        simp only [List.cons_append, List.append_assoc] at hcont ⊢
        simp only [List.length_cons, decodeMany]
        rw [if_neg hnb, htag]
        simp only []
        rw [hcont]
        cases raise <;> rcases hfe : firstErrList vs' with _ | e <;>
          simp [decodeOutcome, firstErrList, firstErr, replyToLuaList, replyToLua, hfe,
            hel, List.length_append, Nat.add_assoc]
      | int n =>
        have hrange : -(2 ^ 63) ≤ n ∧ n < 2 ^ 63 := by
          have h := hwf2.1
          simp [wfReply, Bool.and_eq_true, decide_eq_true_iff] at h
          exact h
        have hb : pre ++ (encodeReply (Reply.int n) ++ (encodeReplyList vs' ++ post)) =
            pre ++ (1 :: (u32le 8 ++ (i64le n ++ (encodeReplyList vs' ++ post)))) := by
          simp [encodeReply, rb_write_header, REPLY_INT]
        have hlenB : (pre ++ (encodeReply (Reply.int n) ++ (encodeReplyList vs' ++ post))).length =
            pre.length + 5 + (8 + ((encodeReplyList vs').length + post.length)) := by
          rw [hb, header_buf_length]
          simp [i64le]
          omega
        have hnb : ¬ (pre.length + 5 >
            (pre ++ (encodeReply (Reply.int n) ++ (encodeReplyList vs' ++ post))).length) := by
          rw [hlenB]; omega
        have hni : ¬ (pre.length + 5 + 8 >
            (pre ++ (encodeReply (Reply.int n) ++ (encodeReplyList vs' ++ post))).length) := by
          rw [hlenB]; omega
        have htag : byteAt (pre ++ (encodeReply (Reply.int n) ++ (encodeReplyList vs' ++ post)))
            pre.length = 1 := by
          rw [hb]; exact byteAt_tag _ _ _
        have hiv : i64at (pre ++ (encodeReply (Reply.int n) ++ (encodeReplyList vs' ++ post)))
            (pre.length + 5) = n := by
          rw [hb]; exact i64at_header _ _ _ _ n hrange.1 hrange.2
        have hel : (encodeReply (Reply.int n)).length = 13 := by
          simp [encodeReply, rb_write_header, REPLY_INT, u32le, i64le]
        rw [hel] at hcont
        have harith : pre.length + 5 + 8 = pre.length + 13 := by omega
        rw [harith] at hni
        simp only [List.cons_append, List.append_assoc] at hcont ⊢
        simp only [List.length_cons, decodeMany]
        rw [if_neg hnb, htag]
        simp only []
        rw [harith, if_neg hni, hiv]
        simp only []
        rw [hcont]
        cases raise <;> rcases hfe : firstErrList vs' with _ | e <;>
          simp [decodeOutcome, firstErrList, firstErr, replyToLuaList, replyToLua, hfe,
            hel, List.length_append, Nat.add_assoc]
      | bulk s =>
        have hslen : s.length < 4294967296 := by
          have h := hwf2.1
          simp [wfReply, decide_eq_true_iff] at h
          omega
        have hb : pre ++ (encodeReply (Reply.bulk s) ++ (encodeReplyList vs' ++ post)) =
            pre ++ (2 :: (u32le s.length ++ (s ++ (encodeReplyList vs' ++ post)))) := by
          simp [encodeReply, rb_write_header, REPLY_BULK]
        have hlenB : (pre ++ (encodeReply (Reply.bulk s) ++ (encodeReplyList vs' ++ post))).length =
            pre.length + 5 + (s.length + ((encodeReplyList vs').length + post.length)) := by
          rw [hb, header_buf_length]
          simp
        have hnb : ¬ (pre.length + 5 >
            (pre ++ (encodeReply (Reply.bulk s) ++ (encodeReplyList vs' ++ post))).length) := by
          rw [hlenB]; omega
        have htag : byteAt (pre ++ (encodeReply (Reply.bulk s) ++ (encodeReplyList vs' ++ post)))
            pre.length = 2 := by
          rw [hb]; exact byteAt_tag _ _ _
        have hm : u32at (pre ++ (encodeReply (Reply.bulk s) ++ (encodeReplyList vs' ++ post)))
            (pre.length + 1) = s.length := by
          rw [hb, u32at_header]; omega
        have hsl : slice (pre ++ (encodeReply (Reply.bulk s) ++ (encodeReplyList vs' ++ post)))
            (pre.length + 5) s.length = s := by
          rw [hb]; exact slice_header _ _ _ _ _
        have hnm : ¬ (pre.length + 5 + s.length >
            (pre ++ (encodeReply (Reply.bulk s) ++ (encodeReplyList vs' ++ post))).length) := by
          rw [hlenB]; omega
        have hel : (encodeReply (Reply.bulk s)).length = 5 + s.length := by
          simp [encodeReply, rb_write_header, REPLY_BULK, u32le]
          omega
        rw [hel, ← Nat.add_assoc] at hcont
        simp only [List.cons_append, List.append_assoc] at hcont ⊢
        simp only [List.length_cons, decodeMany]
        rw [if_neg hnb, htag]
        simp only []
        rw [hm, if_neg hnm, hsl]
        simp only []
        rw [hcont]
        cases raise <;> rcases hfe : firstErrList vs' with _ | e <;>
          simp [decodeOutcome, firstErrList, firstErr, replyToLuaList, replyToLua, hfe,
            hel, List.length_append, Nat.add_assoc]
      | status s =>
        have hslen : s.length < 4294967296 := by
          have h := hwf2.1
          simp [wfReply, decide_eq_true_iff] at h
          omega
        have hb : pre ++ (encodeReply (Reply.status s) ++ (encodeReplyList vs' ++ post)) =
            pre ++ (4 :: (u32le s.length ++ (s ++ (encodeReplyList vs' ++ post)))) := by
          simp [encodeReply, rb_write_header, REPLY_STATUS]
        have hlenB :
            (pre ++ (encodeReply (Reply.status s) ++ (encodeReplyList vs' ++ post))).length =
            pre.length + 5 + (s.length + ((encodeReplyList vs').length + post.length)) := by
          rw [hb, header_buf_length]
          simp
        have hnb : ¬ (pre.length + 5 >
            (pre ++ (encodeReply (Reply.status s) ++ (encodeReplyList vs' ++ post))).length) := by
          rw [hlenB]; omega
        have htag : byteAt (pre ++ (encodeReply (Reply.status s) ++ (encodeReplyList vs' ++ post)))
            pre.length = 4 := by
          rw [hb]; exact byteAt_tag _ _ _
        have hm : u32at (pre ++ (encodeReply (Reply.status s) ++ (encodeReplyList vs' ++ post)))
            (pre.length + 1) = s.length := by
          rw [hb, u32at_header]; omega
        have hsl : slice (pre ++ (encodeReply (Reply.status s) ++ (encodeReplyList vs' ++ post)))
            (pre.length + 5) s.length = s := by
          rw [hb]; exact slice_header _ _ _ _ _
        have hnm : ¬ (pre.length + 5 + s.length >
            (pre ++ (encodeReply (Reply.status s) ++ (encodeReplyList vs' ++ post))).length) := by
          rw [hlenB]; omega
        have hel : (encodeReply (Reply.status s)).length = 5 + s.length := by
          simp [encodeReply, rb_write_header, REPLY_STATUS, u32le]
          omega
        rw [hel, ← Nat.add_assoc] at hcont
        simp only [List.cons_append, List.append_assoc] at hcont ⊢
        simp only [List.length_cons, decodeMany]
        rw [if_neg hnb, htag]
        simp only []
        rw [hm, if_neg hnm, hsl]
        simp only []
        rw [hcont]
        cases raise <;> rcases hfe : firstErrList vs' with _ | e <;>
          simp [decodeOutcome, firstErrList, firstErr, replyToLuaList, replyToLua, hfe,
            hel, List.length_append, Nat.add_assoc]
      | error s =>
        have hslen : s.length < 4294967296 := by
          have h := hwf2.1
          simp [wfReply, decide_eq_true_iff] at h
          omega
        have hb : pre ++ (encodeReply (Reply.error s) ++ (encodeReplyList vs' ++ post)) =
            pre ++ (5 :: (u32le s.length ++ (s ++ (encodeReplyList vs' ++ post)))) := by
          simp [encodeReply, rb_write_header, REPLY_ERROR]
        have hlenB :
            (pre ++ (encodeReply (Reply.error s) ++ (encodeReplyList vs' ++ post))).length =
            pre.length + 5 + (s.length + ((encodeReplyList vs').length + post.length)) := by
          rw [hb, header_buf_length]
          simp
        have hnb : ¬ (pre.length + 5 >
            (pre ++ (encodeReply (Reply.error s) ++ (encodeReplyList vs' ++ post))).length) := by
          rw [hlenB]; omega
        have htag : byteAt (pre ++ (encodeReply (Reply.error s) ++ (encodeReplyList vs' ++ post)))
            pre.length = 5 := by
          rw [hb]; exact byteAt_tag _ _ _
        have hm : u32at (pre ++ (encodeReply (Reply.error s) ++ (encodeReplyList vs' ++ post)))
            (pre.length + 1) = s.length := by
          rw [hb, u32at_header]; omega
        have hsl : slice (pre ++ (encodeReply (Reply.error s) ++ (encodeReplyList vs' ++ post)))
            (pre.length + 5) s.length = s := by
          rw [hb]; exact slice_header _ _ _ _ _
        have hnm : ¬ (pre.length + 5 + s.length >
            (pre ++ (encodeReply (Reply.error s) ++ (encodeReplyList vs' ++ post))).length) := by
          rw [hlenB]; omega
        have hel : (encodeReply (Reply.error s)).length = 5 + s.length := by
          simp [encodeReply, rb_write_header, REPLY_ERROR, u32le]
          omega
        rw [hel, ← Nat.add_assoc] at hcont
        simp only [List.cons_append, List.append_assoc] at hcont ⊢
        simp only [List.length_cons, decodeMany]
        rw [if_neg hnb, htag]
        simp only []
        rw [hm, if_neg hnm, hsl]
        cases raise
        · rw [if_neg Bool.false_ne_true]
          simp only []
          rw [hcont]
          rcases hfe : firstErrList vs' with _ | e <;>
            simp [decodeOutcome, firstErrList, firstErr, replyToLuaList, replyToLua, hfe,
              hel, List.length_append, Nat.add_assoc]
        · rw [if_pos rfl]
          simp [decodeOutcome, firstErrList, firstErr]
      | array xs =>
        have hwfa : xs.length < 4294967296 ∧ wfReplyList xs = true := by
          have h := hwf2.1
          simp [wfReply, Bool.and_eq_true, decide_eq_true_iff] at h
          exact h
        have hb : pre ++ (encodeReply (Reply.array xs) ++ (encodeReplyList vs' ++ post)) =
            pre ++ (3 :: (u32le xs.length ++
              (encodeReplyList xs ++ (encodeReplyList vs' ++ post)))) := by
          simp [encodeReply, rb_write_header, REPLY_ARRAY]
        have hlenB :
            (pre ++ (encodeReply (Reply.array xs) ++ (encodeReplyList vs' ++ post))).length =
            pre.length + 5 +
              ((encodeReplyList xs).length + ((encodeReplyList vs').length + post.length)) := by
          rw [hb, header_buf_length]
          simp
        have hnb : ¬ (pre.length + 5 >
            (pre ++ (encodeReply (Reply.array xs) ++ (encodeReplyList vs' ++ post))).length) := by
          rw [hlenB]; omega
        have htag : byteAt (pre ++ (encodeReply (Reply.array xs) ++ (encodeReplyList vs' ++ post)))
            pre.length = 3 := by
          rw [hb]; exact byteAt_tag _ _ _
        have hm : u32at (pre ++ (encodeReply (Reply.array xs) ++ (encodeReplyList vs' ++ post)))
            (pre.length + 1) = xs.length := by
          rw [hb, u32at_header]; omega
        have hel : (encodeReply (Reply.array xs)).length = 5 + (encodeReplyList xs).length := by
          simp [encodeReply, rb_write_header, REPLY_ARRAY, u32le]
          omega
        have hchild :
            decodeMany raise (pre ++ (encodeReply (Reply.array xs) ++ (encodeReplyList vs' ++ post)))
              F xs.length (pre.length + 5) =
              decodeOutcome raise xs (pre.length + 5 + (encodeReplyList xs).length) := by
          have hfx : (encodeReplyList xs).length + 1 ≤ F := by
            rw [henc] at hfuel
            simp only [List.length_append, hel] at hfuel
            omega
          have hb2 : pre ++ (encodeReply (Reply.array xs) ++ (encodeReplyList vs' ++ post)) =
              (pre ++ (3 :: u32le xs.length)) ++
                (encodeReplyList xs ++ (encodeReplyList vs' ++ post)) := by
            simp [encodeReply, rb_write_header, REPLY_ARRAY]
          have hoff2 : pre.length + 5 = (pre ++ (3 :: u32le xs.length)).length := by
            simp [u32le]
          rw [hb2, hoff2, ihF xs _ _ hwfa.2 hfx, ← hoff2]
        rw [hel, ← Nat.add_assoc] at hcont
        simp only [List.cons_append, List.append_assoc] at hcont hchild ⊢
        simp only [List.length_cons, decodeMany]
        rw [if_neg hnb, htag]
        simp only []
        rw [hm, hchild]
        cases raise
        · simp only [decodeOutcome_false]
          rw [hcont]
          simp [decodeOutcome_false, firstErrList, firstErr, replyToLuaList, replyToLua,
            hel, List.length_append, Nat.add_assoc]
        · rcases hfex : firstErrList xs with _ | e
          · rw [decodeOutcome_true_none _ _ hfex]
            simp only []
            rw [hcont]
            rcases hfe : firstErrList vs' with _ | e <;>
              simp [decodeOutcome, firstErrList, firstErr, hfex, hfe, replyToLuaList,
                replyToLua, hel, List.length_append, Nat.add_assoc]
          · rw [decodeOutcome_true_some _ _ _ hfex]
            simp [decodeOutcome, firstErrList, firstErr, hfex]

/-- Single-frame corollary of `decodeMany_encoded`: `decode_reply` on the
frame of one well-formed Reply value. -/
theorem decode_reply_encodeReply (raise : Bool) (v : Reply) (h : wfReply v = true) :
    decode_reply raise (encodeReply v) ((encodeReply v).length + 1) 0 =
      decodeOutcome raise [v] (encodeReply v).length := by
  have h1 : wfReplyList [v] = true := by simp [wfReplyList, h]
  have hd := decodeMany_encoded raise ((encodeReply v).length + 1) [v] [] [] h1
    (by simp [encodeReplyList])
  simpa [decode_reply, encodeReplyList] using hd

theorem firstErrList_single (v : Reply) : firstErrList [v] = firstErr v := by
  rcases hfe : firstErr v with _ | e <;> simp [firstErrList, hfe]

/-- C1.  For every Reply value `v` of finite depth and finite lengths (a
well-formed `Reply`: lengths fit the 32-bit `count_or_len`, Ints fit 64
bits), decoding the byte frame produced by encoding `v` yields `v` back
(`decode_reply` builds exactly the Lua representation `replyToLua v`, from
which `luaToReply` recovers `v`), and the decode cursor ends exactly at the
encoded length.  The frame `encode_lua_value` emits is `encodeReply v`,
recursively for Array children. -/
theorem c1_codec_round_trip (f : ℚ → List Nat) (v : Reply) (h : wfReply v = true) :
    encode_lua_value f (replyToLua v) = some (encodeReply v) ∧
    decode_reply false (encodeReply v) ((encodeReply v).length + 1) 0 =
      Except.ok ([replyToLua v], (encodeReply v).length) ∧
    luaToReply (replyToLua v) = some v := by
  refine ⟨encode_replyToLua f v, ?_, luaToReply_replyToLua v⟩
  rw [decode_reply_encodeReply false v h, decodeOutcome_false]
  simp [replyToLuaList]

/-- Witness for C1 at a concrete nested value: an Array holding an Int, a
Bulk, a Status, a Null and an inner Array. -/
theorem c1_codec_round_trip_witness :
    wfReply (Reply.array [Reply.int 42, Reply.bulk [0, 255], Reply.status [79, 75],
      Reply.null, Reply.array [Reply.int (-1)]]) = true ∧
    (encode_lua_value (fun _ => []) (replyToLua (Reply.array [Reply.int 42,
        Reply.bulk [0, 255], Reply.status [79, 75], Reply.null,
        Reply.array [Reply.int (-1)]])) =
      some (encodeReply (Reply.array [Reply.int 42, Reply.bulk [0, 255],
        Reply.status [79, 75], Reply.null, Reply.array [Reply.int (-1)]])) ∧
     decode_reply false (encodeReply (Reply.array [Reply.int 42, Reply.bulk [0, 255],
        Reply.status [79, 75], Reply.null, Reply.array [Reply.int (-1)]]))
        ((encodeReply (Reply.array [Reply.int 42, Reply.bulk [0, 255],
          Reply.status [79, 75], Reply.null, Reply.array [Reply.int (-1)]])).length + 1) 0 =
      Except.ok ([replyToLua (Reply.array [Reply.int 42, Reply.bulk [0, 255],
        Reply.status [79, 75], Reply.null, Reply.array [Reply.int (-1)]])],
        (encodeReply (Reply.array [Reply.int 42, Reply.bulk [0, 255],
          Reply.status [79, 75], Reply.null, Reply.array [Reply.int (-1)]])).length) ∧
     luaToReply (replyToLua (Reply.array [Reply.int 42, Reply.bulk [0, 255],
        Reply.status [79, 75], Reply.null, Reply.array [Reply.int (-1)]])) =
      some (Reply.array [Reply.int 42, Reply.bulk [0, 255], Reply.status [79, 75],
        Reply.null, Reply.array [Reply.int (-1)]])) :=
  ⟨by simp [wfReply, wfReplyList],
   c1_codec_round_trip (fun _ => []) _ (by simp [wfReply, wfReplyList])⟩

/-- C4, counterexample.  The claim says `call` raises a script error if and
only if the reply is Error, and that on every non-Error reply kind `call`
and `pcall` return identical values.  The reply `Array [Error "x"]` is not
of kind Error, yet its frame makes `decode_reply` with `raise_on_error`
(i.e. `call`) raise the nested Error's bytes, while `pcall` returns an
array value — the two differ on a non-Error reply kind. -/
theorem c4_counterexample :
    isErrorReply (Reply.array [Reply.error [120]]) = false ∧
    encodeReply (Reply.array [Reply.error [120]]) = [3, 1, 0, 0, 0, 5, 1, 0, 0, 0, 120] ∧
    decode_reply true [3, 1, 0, 0, 0, 5, 1, 0, 0, 0, 120] 3 0 = Except.error [120] ∧
    decode_reply false [3, 1, 0, 0, 0, 5, 1, 0, 0, 0, 120] 3 0 =
      Except.ok ([LuaValue.table [] [LuaValue.table [("err", LuaValue.str [120])] []]], 11) := by
  refine ⟨by simp [isErrorReply], ?_, rfl, rfl⟩
  simp [encodeReply, encodeReplyList, rb_write_header, u32le, i64le,
    REPLY_ARRAY, REPLY_ERROR]

/-- C4, amended.  For a well-formed Reply `v` delivered as a frame:
`call` (`raise_on_error = true`) raises exactly when decoding meets an Error
node (the first one in decode order — in particular always when `v` itself
is Error, but also when an Error is nested in an Array), with that Error's
bytes as the message; `pcall` (`raise_on_error = false`) never raises, and
its result is an `{err = bytes}` table exactly for a top-level Error reply;
when no Error node occurs anywhere, `call` and `pcall` return identical
values — the `raise_on_error` flag is the only behavioural difference. -/
theorem c4_amended (v : Reply) (h : wfReply v = true) :
    decode_reply false (encodeReply v) ((encodeReply v).length + 1) 0 =
      Except.ok ([replyToLua v], (encodeReply v).length) ∧
    (∀ e, firstErr v = some e →
      decode_reply true (encodeReply v) ((encodeReply v).length + 1) 0 = Except.error e) ∧
    (firstErr v = none →
      decode_reply true (encodeReply v) ((encodeReply v).length + 1) 0 =
        decode_reply false (encodeReply v) ((encodeReply v).length + 1) 0) ∧
    (∀ s, v = Reply.error s → replyToLua v = LuaValue.table [("err", LuaValue.str s)] []) ∧
    (isErrorReply v = false →
      ∀ s, replyToLua v ≠ LuaValue.table [("err", LuaValue.str s)] []) := by
  have h0 : decode_reply false (encodeReply v) ((encodeReply v).length + 1) 0 =
      Except.ok ([replyToLua v], (encodeReply v).length) := by
    rw [decode_reply_encodeReply false v h, decodeOutcome_false]
    simp [replyToLuaList]
  refine ⟨h0, ?_, ?_, ?_, ?_⟩
  · intro e hfe
    rw [decode_reply_encodeReply true v h, decodeOutcome_true_some]
    rw [firstErrList_single, hfe]
  · intro hfe
    rw [decode_reply_encodeReply true v h, h0, decodeOutcome_true_none]
    · simp [replyToLuaList]
    · rw [firstErrList_single, hfe]
  · intro s hs
    subst hs
    simp [replyToLua]
  · intro hne s
    cases v <;> simp [replyToLua, replyToLuaList, isErrorReply] at hne ⊢

/-- Witness for C4 at concrete inputs: a Status reply (no Error anywhere,
`call` and `pcall` agree) and an Error reply (`call` raises its bytes). -/
theorem c4_amended_witness :
    (decode_reply true (encodeReply (Reply.status [79])) 7 0 =
      decode_reply false (encodeReply (Reply.status [79])) 7 0) ∧
    decode_reply true (encodeReply (Reply.error [120])) 7 0 = Except.error [120] := by
  constructor
  · have h := (c4_amended (Reply.status [79]) (by simp [wfReply])).2.2.1 (by simp [firstErr])
    have hl : (encodeReply (Reply.status [79])).length = 6 := by
      simp [encodeReply, rb_write_header, REPLY_STATUS, u32le]
    rw [hl] at h
    exact h
  · have h := (c4_amended (Reply.error [120]) (by simp [wfReply])).2.1 [120] (by simp [firstErr])
    have hl : (encodeReply (Reply.error [120])).length = 6 := by
      simp [encodeReply, rb_write_header, REPLY_ERROR, u32le]
    rw [hl] at h
    exact h

/-- C3, counterexample.  The claim maps "a table with string field err and
no ok" to Error and "any other table" to an Array over keys 1..N.  The
table `{ok = true, err = "x"}` has an `ok` field, and that field is not a
string, so under the claim it is "any other table" and must encode as the
empty Array frame `[3,0,0,0,0]` (its sequence length is 0).  The code's
`lua_isstring` test ignores the non-stringy `ok` and accepts the stringy
`err`, emitting an Error frame instead. -/
theorem c3_counterexample :
    encode_lua_value (fun _ => [])
        (LuaValue.table [("ok", LuaValue.boolean true), ("err", LuaValue.str [120])] []) =
      some [5, 1, 0, 0, 0, 120] ∧
    [5, 1, 0, 0, 0, 120] ≠ rb_write_header REPLY_ARRAY 0 := by
  constructor
  · simp [encode_lua_value, encode_table, tget, isStringy, stringyBytes,
      rb_write_header, u32le, REPLY_ERROR]
  · decide

/-- C3, amended.  `encode_lua_value` maps script values to reply frames:
nil to Null; a number equal to its 64-bit truncation to Int(truncation); a
number not equal to its truncation to Bulk of its canonical string form;
true to Int(1); false to Null; a string to Bulk of its bytes; a table whose
`ok` field is a string **or a number** (Lua's `lua_isstring` coercion) to
Status of those bytes; a table whose `err` field is a string or a number
and whose `ok` field is neither, to Error; any other table to an Array over
integer keys 1..N; any other type fails.  In particular `eval` of
`"return 42"` (whose chunk returns the number 42 — interpreter execution
modelled from the spec) yields the 13-byte Int frame
`01 08 00 00 00 2A 00 00 00 00 00 00 00`. -/
theorem c3_encode_mapping (f : ℚ → List Nat) :
    encode_lua_value f LuaValue.nil = some (rb_write_header REPLY_NULL 0) ∧
    (∀ q : ℚ, (luaTrunc q : ℚ) = q →
      encode_lua_value f (LuaValue.num q) =
        some (rb_write_header REPLY_INT 8 ++ i64le (luaTrunc q))) ∧
    (∀ q : ℚ, (luaTrunc q : ℚ) ≠ q →
      encode_lua_value f (LuaValue.num q) =
        some (rb_write_header REPLY_BULK (f q).length ++ f q)) ∧
    encode_lua_value f (LuaValue.boolean true) =
      some (rb_write_header REPLY_INT 8 ++ i64le 1) ∧
    encode_lua_value f (LuaValue.boolean false) = some (rb_write_header REPLY_NULL 0) ∧
    (∀ s, encode_lua_value f (LuaValue.str s) =
      some (rb_write_header REPLY_BULK s.length ++ s)) ∧
    (∀ fields seq, isStringy (tget fields "ok") = true →
      encode_lua_value f (LuaValue.table fields seq) =
        some (rb_write_header REPLY_STATUS (stringyBytes f (tget fields "ok")).length ++
          stringyBytes f (tget fields "ok"))) ∧
    (∀ fields seq, isStringy (tget fields "ok") = false →
        isStringy (tget fields "err") = true →
      encode_lua_value f (LuaValue.table fields seq) =
        some (rb_write_header REPLY_ERROR (stringyBytes f (tget fields "err")).length ++
          stringyBytes f (tget fields "err"))) ∧
    (∀ fields seq, isStringy (tget fields "ok") = false →
        isStringy (tget fields "err") = false →
      encode_lua_value f (LuaValue.table fields seq) =
        (encode_seq f seq).map
          (fun body => rb_write_header REPLY_ARRAY seq.length ++ body)) ∧
    encode_lua_value f LuaValue.fn = none ∧
    encode_lua_value f (LuaValue.num 42) =
      some [1, 8, 0, 0, 0, 42, 0, 0, 0, 0, 0, 0, 0] ∧
    eval_result (init_op initialModState).1 f (some (LuaValue.num 42)) =
      [1, 8, 0, 0, 0, 42, 0, 0, 0, 0, 0, 0, 0] := by
  have h42 : encode_lua_value f (LuaValue.num 42) =
      some [1, 8, 0, 0, 0, 42, 0, 0, 0, 0, 0, 0, 0] := by
    simp [encode_lua_value, luaTrunc, rb_write_header, u32le, i64le, REPLY_INT]
  refine ⟨by simp [encode_lua_value], ?_, ?_, by simp [encode_lua_value],
    by simp [encode_lua_value], ?_, ?_, ?_, ?_, by simp [encode_lua_value], h42, ?_⟩
  · intro q hq
    simp [encode_lua_value, hq]
  · intro q hq
    simp [encode_lua_value, hq]
  · intro s
    simp [encode_lua_value]
  · intro fields seq hok
    simp [encode_lua_value, encode_table, hok]
  · intro fields seq hok herr
    simp [encode_lua_value, encode_table, hok, herr]
  · intro fields seq hok herr
    rcases hs : encode_seq f seq with _ | body <;>
      simp [encode_lua_value, encode_table, hok, herr, hs]
  · simp [eval_result, h42, init_op, initialModState]

/-- Witness for C3 at concrete inputs: the integral number 42, the
non-integral number 7/2, and a plain sequence table. -/
theorem c3_encode_mapping_witness :
    ((luaTrunc (7 / 2 : ℚ) : ℚ) ≠ (7 / 2 : ℚ)) ∧
    encode_lua_value (fun _ => [51, 46, 53]) (LuaValue.num (7 / 2)) =
      some (rb_write_header REPLY_BULK 3 ++ [51, 46, 53]) ∧
    isStringy (tget [("ok", LuaValue.str [79, 75])] "ok") = true ∧
    encode_lua_value (fun _ => [])
        (LuaValue.table [("ok", LuaValue.str [79, 75])] []) =
      some (rb_write_header REPLY_STATUS 2 ++ [79, 75]) ∧
    eval_result (init_op initialModState).1 (fun _ => []) (some (LuaValue.num 42)) =
      [1, 8, 0, 0, 0, 42, 0, 0, 0, 0, 0, 0, 0] := by
  have hq : (luaTrunc (7 / 2 : ℚ) : ℚ) ≠ (7 / 2 : ℚ) := by
    have h1 : luaTrunc (7 / 2 : ℚ) = 3 := by
      norm_num [luaTrunc]
      decide
    rw [h1]
    norm_num
  refine ⟨hq, ?_, by simp [isStringy, tget], ?_, ?_⟩
  · have h := (c3_encode_mapping (fun _ => [51, 46, 53])).2.2.1 (7 / 2 : ℚ) hq
    simpa using h
  · have h := (c3_encode_mapping (fun _ => [])).2.2.2.2.2.2.1
      [("ok", LuaValue.str [79, 75])] [] (by simp [isStringy, tget])
    simpa [stringyBytes, tget] using h
  · exact (c3_encode_mapping (fun _ => [])).2.2.2.2.2.2.2.2.2.2.2

/-- C8, counterexample.  The claim says every failure condition of
`decode_reply` — including an unrecognized tag byte — raises
`"ERR reply decoding failed"`.  On the frame `[6,0,0,0,0]` (tag 6, outside
0..5) the decoder raises `"ERR unknown reply type"` instead: the `default:`
arm of the switch uses a different message. -/
theorem c8_counterexample :
    decode_reply false [6, 0, 0, 0, 0] 2 0 = Except.error unknownTypeMsg ∧
    unknownTypeMsg ≠ decodeFailMsg := by
  exact ⟨rfl, by decide⟩

/-- C8, amended.  Whenever `decode_reply` fails on a bounds condition — the
5-byte header would read past the end, an Int payload is shorter than 8
bytes, a Bulk/Status/Error payload is shorter than `count_or_len` — it
raises the generic `"ERR reply decoding failed"`; an Array child failure
propagates the child's raise unchanged (so a failing child raises the
generic message too); but a tag byte outside 0..5 raises
`"ERR unknown reply type"`, not the generic message. -/
theorem c8_decode_failures :
    (∀ (raise : Bool) (buf : List Nat) (fuel off : Nat), off + 5 > buf.length →
      decode_reply raise buf fuel off = Except.error decodeFailMsg) ∧
    (∀ (raise : Bool) (buf : List Nat) (fuel off : Nat),
      byteAt buf off = 1 → ¬ off + 5 > buf.length → off + 5 + 8 > buf.length →
      decode_reply raise buf (fuel + 1) off = Except.error decodeFailMsg) ∧
    (∀ (raise : Bool) (buf : List Nat) (fuel off : Nat),
      byteAt buf off = 2 → ¬ off + 5 > buf.length →
      off + 5 + u32at buf (off + 1) > buf.length →
      decode_reply raise buf (fuel + 1) off = Except.error decodeFailMsg) ∧
    (∀ (raise : Bool) (buf : List Nat) (fuel off : Nat),
      byteAt buf off = 4 → ¬ off + 5 > buf.length →
      off + 5 + u32at buf (off + 1) > buf.length →
      decode_reply raise buf (fuel + 1) off = Except.error decodeFailMsg) ∧
    (∀ (raise : Bool) (buf : List Nat) (fuel off : Nat),
      byteAt buf off = 5 → ¬ off + 5 > buf.length →
      off + 5 + u32at buf (off + 1) > buf.length →
      decode_reply raise buf (fuel + 1) off = Except.error decodeFailMsg) ∧
    (∀ (raise : Bool) (buf : List Nat) (fuel off : Nat) (e : List Nat),
      byteAt buf off = 3 → ¬ off + 5 > buf.length →
      decodeMany raise buf fuel (u32at buf (off + 1)) (off + 5) = Except.error e →
      decode_reply raise buf (fuel + 1) off = Except.error e) ∧
    (∀ (raise : Bool) (buf : List Nat) (fuel off : Nat),
      6 ≤ byteAt buf off → ¬ off + 5 > buf.length →
      decode_reply raise buf (fuel + 1) off = Except.error unknownTypeMsg) ∧
    decodeFailMsg = msgBytes "ERR reply decoding failed" ∧
    unknownTypeMsg = msgBytes "ERR unknown reply type" := by
  refine ⟨?_, ?_, ?_, ?_, ?_, ?_, ?_, rfl, rfl⟩
  · intro raise buf fuel off hshort
    cases fuel with
    | zero => simp [decode_reply, decodeMany]
    | succ k => simp [decode_reply, decodeMany, hshort]
  · intro raise buf fuel off htg hok hshort
    simp [decode_reply, decodeMany, hok, htg, hshort]
  · intro raise buf fuel off htg hok hshort
    simp [decode_reply, decodeMany, hok, htg, hshort]
  · intro raise buf fuel off htg hok hshort
    simp [decode_reply, decodeMany, hok, htg, hshort]
  · intro raise buf fuel off htg hok hshort
    simp [decode_reply, decodeMany, hok, htg, hshort]
  · intro raise buf fuel off e htg hok hchild
    simp [decode_reply, decodeMany, hok, htg, hchild]
  · intro raise buf fuel off htg hok
    obtain ⟨k, hk⟩ : ∃ k, byteAt buf off = k + 6 :=
      ⟨byteAt buf off - 6, by omega⟩
    simp [decode_reply, decodeMany, hok, hk]

/-- Witness for C8 at concrete inputs: each failure family evaluated on a
concrete malformed frame. -/
theorem c8_decode_failures_witness :
    decode_reply false [2, 1] 1 0 = Except.error decodeFailMsg ∧
    decode_reply false [1, 8, 0, 0, 0, 1, 2] 1 0 = Except.error decodeFailMsg ∧
    decode_reply false [2, 9, 0, 0, 0, 1, 2] 1 0 = Except.error decodeFailMsg ∧
    decode_reply true [4, 9, 0, 0, 0, 1, 2] 1 0 = Except.error decodeFailMsg ∧
    decode_reply true [5, 9, 0, 0, 0, 1, 2] 1 0 = Except.error decodeFailMsg ∧
    decode_reply false [3, 1, 0, 0, 0, 6, 0, 0, 0, 0] 2 0 = Except.error unknownTypeMsg ∧
    decode_reply false [7, 0, 0, 0, 0] 1 0 = Except.error unknownTypeMsg := by
  refine ⟨c8_decode_failures.1 false [2, 1] 1 0 (by decide),
    c8_decode_failures.2.1 false [1, 8, 0, 0, 0, 1, 2] 0 0 (by decide) (by decide) (by decide),
    c8_decode_failures.2.2.1 false [2, 9, 0, 0, 0, 1, 2] 0 0 (by decide) (by decide) ?_,
    c8_decode_failures.2.2.2.1 true [4, 9, 0, 0, 0, 1, 2] 0 0 (by decide) (by decide) ?_,
    c8_decode_failures.2.2.2.2.1 true [5, 9, 0, 0, 0, 1, 2] 0 0 (by decide) (by decide) ?_,
    c8_decode_failures.2.2.2.2.2.1 false [3, 1, 0, 0, 0, 6, 0, 0, 0, 0] 1 0 unknownTypeMsg
      (by decide) (by decide) ?_,
    c8_decode_failures.2.2.2.2.2.2.1 false [7, 0, 0, 0, 0] 0 0 (by decide) (by decide)⟩
  · show 0 + 5 + u32at [2, 9, 0, 0, 0, 1, 2] 1 > 7
    decide
  · show 0 + 5 + u32at [4, 9, 0, 0, 0, 1, 2] 1 > 7
    decide
  · show 0 + 5 + u32at [5, 9, 0, 0, 0, 1, 2] 1 > 7
    decide
  · show decodeMany false [3, 1, 0, 0, 0, 6, 0, 0, 0, 0] 1
      (u32at [3, 1, 0, 0, 0, 6, 0, 0, 0, 0] 1) 5 = Except.error unknownTypeMsg
    rfl

/-- C2, bug exhibit.  The claim (and the spec) say each error reply's
payload is exactly the human-readable message, with payload length equal to
the message's character count and no NUL or bytes beyond.  The source calls
`reply_error` with hard-coded length constants; several are off: the
invalid-KEYS/ARGV reply carries 31 payload bytes for a 30-character message
(the NUL terminator is included), the unsupported-return-type reply 32 for
31, and the arg-limit constant 40 even exceeds the 39-byte literal region
(38 characters plus NUL), an out-of-bounds read.  The load/execution
fallback constants 23 and 28 also include the NUL (22- and 27-character
messages), while the VM-not-initialized and reply-limit constants are
exact. -/
theorem c2_error_payload_lengths :
    invalidKeysReply =
      rb_write_header REPLY_ERROR 31 ++ (msgBytes "ERR invalid KEYS/ARGV encoding" ++ [0]) ∧
    (msgBytes "ERR invalid KEYS/ARGV encoding").length = 30 ∧
    unsupportedReply =
      rb_write_header REPLY_ERROR 32 ++ (msgBytes "ERR unsupported Lua return type" ++ [0]) ∧
    (msgBytes "ERR unsupported Lua return type").length = 31 ∧
    (msgBytes "ERR KEYS/ARGV exceeds configured limit").length = 38 ∧
    (msgBytes "ERR script load failed").length = 22 ∧
    (msgBytes "ERR script execution failed").length = 27 ∧
    (msgBytes "ERR Lua VM not initialized").length = 26 ∧
    vmNotInitReply =
      rb_write_header REPLY_ERROR 26 ++ msgBytes "ERR Lua VM not initialized" ∧
    (msgBytes "ERR reply exceeds configured limit").length = 34 ∧
    replyLimitReply =
      rb_write_header REPLY_ERROR 34 ++ msgBytes "ERR reply exceeds configured limit" := by
  decide

/-- The item loop of `set_keys_argv` parses back exactly the items of a
well-formed request frame embedded at any offset. -/
theorem parseItems_encoded :
    ∀ (items : List (List Nat)) (pre post : List Nat),
      (∀ s ∈ items, s.length < 4294967296) →
      parseItems (pre ++ (itemsEnc items ++ post)) items.length pre.length = some items := by
  intro items
  induction items with
  | nil =>
    intro pre post h
    simp [parseItems]
  | cons s rest ih =>
    intro pre post h
    have hs : s.length < 4294967296 := h s (by simp)
    have hrest : ∀ x ∈ rest, x.length < 4294967296 := fun x hx => h x (by simp [hx])
    have hb : pre ++ (itemsEnc (s :: rest) ++ post) =
        pre ++ (u32le s.length ++ (s ++ (itemsEnc rest ++ post))) := by
      simp [itemsEnc]
    have hlen : (pre ++ (u32le s.length ++ (s ++ (itemsEnc rest ++ post)))).length =
        pre.length + 4 + (s.length + ((itemsEnc rest).length + post.length)) := by
      simp [u32le]
      omega
    have hc1 : ¬ (pre.length + 4 >
        (pre ++ (u32le s.length ++ (s ++ (itemsEnc rest ++ post)))).length) := by
      rw [hlen]; omega
    have hn : u32at (pre ++ (u32le s.length ++ (s ++ (itemsEnc rest ++ post)))) pre.length =
        s.length := u32at_append_exact _ _ _ hs
    have hc2 : ¬ (pre.length + 4 + s.length >
        (pre ++ (u32le s.length ++ (s ++ (itemsEnc rest ++ post)))).length) := by
      rw [hlen]; omega
    have hsl : slice (pre ++ (u32le s.length ++ (s ++ (itemsEnc rest ++ post))))
        (pre.length + 4) s.length = s := by
      have h1 : pre ++ (u32le s.length ++ (s ++ (itemsEnc rest ++ post))) =
          (pre ++ u32le s.length) ++ (s ++ (itemsEnc rest ++ post)) := by simp
      have h2 : pre.length + 4 = (pre ++ u32le s.length).length := by simp [u32le]
      rw [h1, h2, slice_exact]
    have hpl : (pre ++ (u32le s.length ++ s)).length = pre.length + 4 + s.length := by
      simp [u32le]
      omega
    have hrec := ih (pre ++ (u32le s.length ++ s)) post hrest
    rw [show (pre ++ (u32le s.length ++ s)) ++ (itemsEnc rest ++ post) =
        pre ++ (u32le s.length ++ (s ++ (itemsEnc rest ++ post))) from by simp] at hrec
    rw [hpl] at hrec
    rw [hb]
    simp only [List.length_cons, parseItems]
    rw [if_neg hc1, hn, if_neg hc2, hrec, hsl]

/-- C5.  `eval_with_args`'s argument parser (`set_keys_argv`) reads the
frame as a 32-bit little-endian count followed by `count`
(32-bit length, bytes) items.  On the frame of any item list it succeeds
exactly when `keys_count` does not exceed the count, and then the first
`keys_count` items become KEYS (1-indexed, in order) and the rest ARGV;
it fails when the 4-byte count cannot be read, when an item's 4-byte
length field cannot be read, when an item's declared length overflows the
buffer, and when `keys_count` exceeds the count. -/
theorem c5_set_keys_argv (items : List (List Nat)) (keys_count : Nat)
    (hilen : ∀ s ∈ items, s.length < 4294967296) (hcount : items.length < 4294967296) :
    (keys_count ≤ items.length →
      set_keys_argv (requestFrame items) keys_count =
        some (items.take keys_count, items.drop keys_count)) ∧
    (keys_count > items.length →
      set_keys_argv (requestFrame items) keys_count = none) ∧
    (∀ (buf : List Nat) (k : Nat), buf.length < 4 → set_keys_argv buf k = none) ∧
    (∀ (buf : List Nat) (count off : Nat), off + 4 > buf.length →
      parseItems buf (count + 1) off = none) ∧
    (∀ (buf : List Nat) (count off : Nat), ¬ off + 4 > buf.length →
      off + 4 + u32at buf off > buf.length → parseItems buf (count + 1) off = none) ∧
    (∀ (buf : List Nat) (k : Nat), ¬ buf.length < 4 → ¬ k > u32at buf 0 →
      parseItems buf (u32at buf 0) 4 = none → set_keys_argv buf k = none) := by
  have hcnt : u32at (requestFrame items) 0 = items.length := by
    have h := u32at_append_exact [] (itemsEnc items) items.length hcount
    simpa [requestFrame] using h
  have hlen4 : ¬ (requestFrame items).length < 4 := by
    simp [requestFrame, u32le]
  have hitems : parseItems (requestFrame items) items.length 4 = some items := by
    have h := parseItems_encoded items (u32le items.length) [] hilen
    simpa [requestFrame, u32le] using h
  refine ⟨?_, ?_, ?_, ?_, ?_, ?_⟩
  · intro hk
    rw [set_keys_argv, if_neg hlen4]
    simp only [hcnt, hitems]
    rw [if_neg (by omega)]
  · intro hk
    rw [set_keys_argv, if_neg hlen4]
    simp only [hcnt]
    rw [if_pos hk]
  · intro buf k hshort
    simp [set_keys_argv, hshort]
  · intro buf count off hshort
    simp [parseItems, hshort]
  · intro buf count off hok hov
    simp [parseItems, hok, hov]
  · intro buf k h4 hk hfail
    rw [set_keys_argv, if_neg h4, if_neg hk]
    simp [hfail]

/-- Witness for C5: the two-item frame of the spec's scenario 4
(`item1 = 00 01 02`, `item2 = 03 00 04`, `keys_count = 1`) parses into
`KEYS = [[0,1,2]]`, `ARGV = [[3,0,4]]`; with `keys_count = 3` it fails;
short and truncated buffers fail. -/
theorem c5_set_keys_argv_witness :
    set_keys_argv (requestFrame [[0, 1, 2], [3, 0, 4]]) 1 =
      some ([[0, 1, 2]], [[3, 0, 4]]) ∧
    set_keys_argv (requestFrame [[0, 1, 2], [3, 0, 4]]) 3 = none ∧
    set_keys_argv [0, 0, 0] 0 = none ∧
    parseItems [1, 0, 0, 0] 1 4 = none ∧
    parseItems [9, 0, 0, 0, 1, 2] 1 0 = none := by
  have h := c5_set_keys_argv [[0, 1, 2], [3, 0, 4]] 1 (by decide) (by decide)
  have h3 := c5_set_keys_argv [[0, 1, 2], [3, 0, 4]] 3 (by decide) (by decide)
  refine ⟨?_, h3.2.1 (by decide), h.2.2.1 [0, 0, 0] 0 (by decide),
    h.2.2.2.1 [1, 0, 0, 0] 0 4 (by decide), h.2.2.2.2.1 [9, 0, 0, 0, 1, 2] 0 0
      (by decide) (by decide)⟩
  have h1 := h.1 (by decide)
  simpa using h1

/-- C6.  For any script that does not terminate within the configured fuel
limit — i.e. the hook fires often enough that `n` firings cover the limit
`L` — the fuel hook raises a script error whose message is the literal
`"Script killed by fuel limit"`, and the entry point's execution-failure
path consequently returns the Error reply whose payload is exactly that
message (which contains `"fuel"` at offset 17).  The interpreter's delivery
of the raised message to `lua_pcall`'s caller is modelled from the spec. -/
theorem c6_fuel_limit (L : Int) (n : Nat) (hpos : 0 < L) (hle : L ≤ 1000 * n) :
    run_hooks L n = Except.error fuelMsg ∧
    exec_failure_reply fuelMsg = rb_write_header REPLY_ERROR 27 ++ fuelMsg ∧
    fuelMsg = msgBytes "Script killed by fuel limit" ∧
    (fuelMsg.drop 17).take 4 = msgBytes "fuel" := by
  refine ⟨?_, ?_, rfl, by decide⟩
  · induction n generalizing L with
    | zero => omega
    | succ m ih =>
      by_cases hc : L - FUEL_HOOK_STEP ≤ 0
      · simp [run_hooks, fuel_hook, hc]
      · have hstep : (FUEL_HOOK_STEP : Int) = 1000 := rfl
        simp only [run_hooks, fuel_hook]
        rw [if_neg hc]
        exact ih (L - FUEL_HOOK_STEP) (by omega) (by rw [hstep]; omega)
  · have hl : fuelMsg.length = 27 := by decide
    simp [exec_failure_reply, reply_error, hl]

/-- Witness for C6 at the default fuel limit: 10000 hook firings cover
`DEFAULT_FUEL_LIMIT = 10^7` instructions. -/
theorem c6_fuel_limit_witness :
    run_hooks DEFAULT_FUEL_LIMIT 10000 = Except.error fuelMsg ∧
    exec_failure_reply fuelMsg = rb_write_header REPLY_ERROR 27 ++ fuelMsg :=
  ⟨(c6_fuel_limit DEFAULT_FUEL_LIMIT 10000 (by decide) (by decide)).1,
   (c6_fuel_limit DEFAULT_FUEL_LIMIT 10000 (by decide) (by decide)).2.1⟩

/-- C7.  After every successful `init` (and identically after `reset`,
which runs the same sequence), each of the globals `io`, `os`, `debug`,
`package`, `require`, `dofile`, `loadfile` and the fields `math.random`
and `math.randomseed` is nil in the script environment, and each of the
globals `cjson`, `cmsgpack`, `struct`, `bit` is a table.  (The external
library loaders are modelled from the spec: each baseline `luaopen_*`
installs only its own library's globals, and each auxiliary loader
registers a table under its own name.) -/
theorem c7_sandbox_closure :
    getGlobal init_lua_env "io" = LuaValue.nil ∧
    getGlobal init_lua_env "os" = LuaValue.nil ∧
    getGlobal init_lua_env "debug" = LuaValue.nil ∧
    getGlobal init_lua_env "package" = LuaValue.nil ∧
    getGlobal init_lua_env "require" = LuaValue.nil ∧
    getGlobal init_lua_env "dofile" = LuaValue.nil ∧
    getGlobal init_lua_env "loadfile" = LuaValue.nil ∧
    getGlobalField init_lua_env "math" "random" = LuaValue.nil ∧
    getGlobalField init_lua_env "math" "randomseed" = LuaValue.nil ∧
    isTable (getGlobal init_lua_env "cjson") = true ∧
    isTable (getGlobal init_lua_env "cmsgpack") = true ∧
    isTable (getGlobal init_lua_env "struct") = true ∧
    isTable (getGlobal init_lua_env "bit") = true ∧
    reset_lua_env = init_lua_env ∧
    getGlobal reset_lua_env "io" = LuaValue.nil ∧
    getGlobalField reset_lua_env "math" "random" = LuaValue.nil ∧
    isTable (getGlobal reset_lua_env "cjson") = true := by
  refine ⟨rfl, rfl, rfl, rfl, rfl, rfl, rfl, rfl, rfl, rfl, rfl, rfl, rfl, rfl,
    rfl, rfl, rfl⟩

/-- C9.  The protocol-version scalar managed by `setresp` starts at 2 at
module load; every `setresp(v)` stores `v` (through the `uint32_t` cast)
and returns the previously stored value; and neither `init` nor `reset`
touches it — it survives interpreter teardown and recreation. -/
theorem c9_resp_version (s : ModState) (v : Nat) (hv : v < 2 ^ 32) :
    initialModState.resp_version = 2 ∧
    (setresp_op s v).1 = s.resp_version ∧
    ((setresp_op s v).2).resp_version = v ∧
    ((init_op s).1).resp_version = s.resp_version ∧
    ((reset_op s).1).resp_version = s.resp_version := by
  refine ⟨rfl, rfl, ?_, rfl, ?_⟩
  · simp [setresp_op, Nat.mod_eq_of_lt (show v < 4294967296 by omega)]
  · by_cases h : s.initialized <;> simp [reset_op, h]

/-- Witness for C9: a `setresp(3)` call after `init` on the pristine
state. -/
theorem c9_resp_version_witness :
    (setresp_op (init_op initialModState).1 3).1 = 2 ∧
    ((setresp_op (init_op initialModState).1 3).2).resp_version = 3 ∧
    ((init_op initialModState).1).resp_version = 2 := by
  have h := c9_resp_version (init_op initialModState).1 3 (by decide)
  exact ⟨h.2.1, h.2.2.1, h.2.2.2.1⟩

/-- C10, counterexample.  The claim says every `eval_with_args` call on an
initialized interpreter with `args_len < 4` yields the
`"ERR invalid KEYS/ARGV encoding"` reply.  But the `max_arg_bytes` check
runs first: with `max_arg_bytes = 2` and a 3-byte argument buffer the call
is rejected with the arg-limit error instead. -/
theorem c10_counterexample :
    eval_with_args_argstep ⟨true, 10000000, 10000000, 0, 2, 2⟩ [0, 0, 0] 0 =
      ArgStepResult.argLimitExceeded ∧
    ArgStepResult.argLimitExceeded ≠ ArgStepResult.badEncoding := by
  exact ⟨rfl, by decide⟩

/-- C10, amended.  For every call to `eval_with_args` on an initialized
interpreter with `args_len < 4` that passes the `max_arg_bytes` check
(`max_arg_bytes = 0` or `args_len ≤ max_arg_bytes`) — including the
all-zero call `args_ptr = 0, args_len = 0, keys_count = 0` — the result is
the `"ERR invalid KEYS/ARGV encoding"` error reply: there is no
empty-arguments shortcut, and a zero-count 4-byte frame is required to run
a script without arguments. -/
theorem c10_no_empty_shortcut (s : ModState) (args : List Nat) (keys_count : Nat)
    (hinit : s.initialized = true) (hshort : args.length < 4)
    (hlim : s.max_arg_bytes = 0 ∨ args.length ≤ s.max_arg_bytes) :
    eval_with_args_argstep s args keys_count = ArgStepResult.badEncoding := by
  have hska : set_keys_argv args keys_count = none := by
    simp [set_keys_argv, hshort]
  have hcond : ¬ (0 < s.max_arg_bytes ∧ s.max_arg_bytes < args.length) := by
    rcases hlim with h | h <;> omega
  simp [eval_with_args_argstep, hinit, hcond, hska]

/-- Witness for C10 at the all-zero call on a freshly initialized module:
no arguments buffer at all still yields the invalid-encoding error. -/
theorem c10_no_empty_shortcut_witness :
    eval_with_args_argstep (init_op initialModState).1 [] 0 =
      ArgStepResult.badEncoding :=
  c10_no_empty_shortcut (init_op initialModState).1 [] 0 rfl (by decide) (Or.inl rfl)

end LuaRedisWasm
